import Mathlib

/-!
Verification of the trading decision and risk enforcement core of the
tradebot repository. Python floats are modelled as rationals (ℚ) and
Python ints as integers (ℤ); fallible code returns `Except`.  Each
definition is a shallow embedding of the correspondingly named function
of the source tree.
-/

namespace TradeBot

/-- From `src/paid_trading_bot/risk/limits.py`: frozen configuration record. -/
structure HardRiskLimits where
  max_risk_per_trade_percent : ℚ := 1
  min_risk_per_trade_percent : ℚ := 1/2
  daily_loss_cap_percent : ℚ := 3
  max_drawdown_percent : ℚ := 10
  max_consecutive_losses : ℤ := 5
  max_open_positions : ℤ := 2
  max_trades_per_day : ℤ := 6
  max_slippage_percent : ℚ := 1/2
  api_key_withdrawal_check : Bool := true
  deriving Repr, DecidableEq

/-- The default-constructed `HardRiskLimits()` of the Python source. -/
def defaultLimits : HardRiskLimits := {}

/-- From `src/paid_trading_bot/core/types.py`: trade side enum. -/
inductive TradeSide where
  | LONG
  | SHORT
  deriving Repr, DecidableEq

/-- From `src/paid_trading_bot/core/types.py`: account snapshot. -/
structure AccountState where
  balance : ℚ
  daily_pnl_percent : ℚ
  current_drawdown_percent : ℚ
  consecutive_losses : ℤ
  open_positions : ℤ
  trades_today : ℤ
  deriving Repr, DecidableEq

/-- From `src/paid_trading_bot/core/types.py`: a pre-trade request.
The timestamp plays no role in any embedded function and is modelled
as an abstract natural number. -/
structure TradeRequest where
  symbol : String
  side : TradeSide
  entry_price : ℚ
  stop_loss : ℚ
  position_size : ℚ
  timestamp : ℕ
  deriving Repr, DecidableEq

/-- From `src/paid_trading_bot/risk/validators.py`: result record of the
hard risk validator. -/
structure ValidationResult where
  approved : Bool
  reason : String
  details : String
  deriving Repr, DecidableEq

/-- From `src/paid_trading_bot/risk/validators.py`,
`calculate_trade_risk_percent`: risk of a trade as percent of balance. -/
def calculate_trade_risk_percent (position_size entry_price stop_loss
    account_balance : ℚ) : ℚ :=
  if account_balance ≤ 0 then 0
  else
    let stop_distance := |entry_price - stop_loss|
    if stop_distance ≤ 0 then 0
    else
      let risk_amount := position_size * stop_distance
      (risk_amount / account_balance) * 100

/-- From `src/paid_trading_bot/risk/validators.py`,
`validate_trade_request`: the seven-check pre-trade gate, evaluated in
source order with early return on the first failure. -/
def validate_trade_request (request : TradeRequest)
    (account_state : AccountState) (risk_limits : HardRiskLimits) :
    ValidationResult :=
  if account_state.daily_pnl_percent ≤ -risk_limits.daily_loss_cap_percent then
    { approved := false
      reason := "DAILY_LOSS_CAP_HIT"
      details := "Daily loss " ++ toString account_state.daily_pnl_percent
        ++ "% exceeds cap" }
  else if account_state.current_drawdown_percent ≥ risk_limits.max_drawdown_percent then
    { approved := false
      reason := "MAX_DRAWDOWN_HIT"
      details := "Drawdown " ++ toString account_state.current_drawdown_percent
        ++ "% exceeds limit" }
  else if account_state.consecutive_losses ≥ risk_limits.max_consecutive_losses then
    { approved := false
      reason := "MAX_CONSECUTIVE_LOSSES_HIT"
      details := toString account_state.consecutive_losses ++ " consecutive losses" }
  else if account_state.open_positions ≥ risk_limits.max_open_positions then
    { approved := false
      reason := "MAX_POSITIONS_REACHED"
      details := toString account_state.open_positions ++ " positions already open" }
  else if account_state.trades_today ≥ risk_limits.max_trades_per_day then
    { approved := false
      reason := "MAX_DAILY_TRADES_REACHED"
      details := toString account_state.trades_today ++ " trades executed today" }
  else
    let trade_risk_percent := calculate_trade_risk_percent
      request.position_size request.entry_price request.stop_loss
      account_state.balance
    if trade_risk_percent > risk_limits.max_risk_per_trade_percent then
      { approved := false
        reason := "RISK_PER_TRADE_EXCEEDED"
        details := "Trade risk " ++ toString trade_risk_percent ++ "% exceeds "
          ++ toString risk_limits.max_risk_per_trade_percent ++ "%" }
    else
      { approved := true, reason := "ALL_CHECKS_PASSED", details := "OK" }

/-- From `src/paid_trading_bot/risk/position_sizer.py`,
`calculate_position_size`: position size from balance, requested risk,
stop distance and the clamped advisory multiplier.  The optional
`hard_limits` argument mirrors Python's `hard_limits or HardRiskLimits()`
default. -/
def calculate_position_size (account_balance risk_percent entry_price
    stop_loss_price ai_risk_multiplier : ℚ)
    (hard_limits : Option HardRiskLimits) : ℚ :=
  let limits := hard_limits.getD defaultLimits
  if account_balance ≤ 0 then 0
  else
    let risk_percent_capped := min risk_percent limits.max_risk_per_trade_percent
    let risk_percent_capped := max risk_percent_capped 0
    let effective_risk_percent :=
      risk_percent_capped * min (max ai_risk_multiplier 0) 1
    if effective_risk_percent ≤ 0 then 0
    else
      let stop_distance := |entry_price - stop_loss_price|
      if stop_distance ≤ 0 then 0
      else
        let risk_amount := account_balance * (effective_risk_percent / 100)
        let position_size := risk_amount / stop_distance
        if position_size < 0 then 0 else position_size

/-- From `src/paid_trading_bot/risk/circuit_breaker.py`: breaker thresholds. -/
structure CircuitBreakerConfig where
  emergency_drawdown_percent : ℚ := 10
  max_api_failures : ℤ := 5
  balance_tolerance_percent : ℚ := 1
  deriving Repr, DecidableEq

/-- From `src/paid_trading_bot/risk/circuit_breaker.py`: telemetry snapshot
fed to `check_and_trip`. -/
structure SystemState where
  drawdown_percent : ℚ
  sentinel_status : String
  sentinel_reason : Option String
  api_consecutive_failures : ℤ
  balance_discrepancy_percent : ℚ
  deriving Repr, DecidableEq

/-- The mutable fields of the Python `CircuitBreaker` object.  The wall-clock
timestamp written by `datetime.utcnow()` is modelled as an abstract natural
number supplied to `check_and_trip` by the caller. -/
structure BreakerState where
  is_tripped : Bool
  trip_reason : Option String
  trip_timestamp : Option ℕ
  deriving Repr, DecidableEq

/-- `CircuitBreaker.__init__`: the breaker starts untripped. -/
def BreakerState.init : BreakerState :=
  { is_tripped := false, trip_reason := none, trip_timestamp := none }

/-- Rendering of a Python `str | None` inside an f-string. -/
def optStr : Option String → String
  | none => "None"
  | some s => s

/-- The `trip_conditions` list built inside `check_and_trip`, in source
order: drawdown, sentinel, API failures, balance mismatch. -/
def tripConditions (config : CircuitBreakerConfig) (state : SystemState) :
    List (Bool × String) :=
  [ (state.drawdown_percent ≥ config.emergency_drawdown_percent,
      "EMERGENCY_DRAWDOWN: " ++ toString state.drawdown_percent ++ "%"),
    (state.sentinel_status.toUpper = "CRITICAL",
      "SENTINEL_CRITICAL: " ++ optStr state.sentinel_reason),
    (state.api_consecutive_failures ≥ config.max_api_failures,
      "API_FAILURES: " ++ toString state.api_consecutive_failures),
    (state.balance_discrepancy_percent > config.balance_tolerance_percent,
      "BALANCE_MISMATCH: " ++ toString state.balance_discrepancy_percent ++ "%") ]

/-- `CircuitBreaker._trip`. -/
def BreakerState.trip (reason : String) (now : ℕ) : BreakerState :=
  { is_tripped := true, trip_reason := some reason, trip_timestamp := some now }

/-- `CircuitBreaker.check_and_trip`: latched early-return when already
tripped, otherwise the first true condition trips the breaker. -/
def check_and_trip (config : CircuitBreakerConfig) (s : BreakerState)
    (state : SystemState) (now : ℕ) : Bool × BreakerState :=
  if s.is_tripped then (true, s)
  else
    match (tripConditions config state).find? (fun c => c.1) with
    | some c => (true, BreakerState.trip c.2 now)
    | none => (false, s)

/-- `CircuitBreaker.manual_reset`: `bool(admin_token)` gates the reset. -/
def manual_reset (s : BreakerState) (admin_token : String) :
    Bool × BreakerState :=
  if admin_token = "" then (false, s)
  else (true, { is_tripped := false, trip_reason := none, trip_timestamp := none })

/-- An operation performed on a circuit breaker: a `check_and_trip` call
with its telemetry and clock, or a `manual_reset` call with its token. -/
inductive BreakerOp where
  | check (state : SystemState) (now : ℕ)
  | reset (admin_token : String)
  deriving Repr, DecidableEq

/-- Run one operation, discarding the returned boolean. -/
def breakerStep (config : CircuitBreakerConfig) (s : BreakerState) :
    BreakerOp → BreakerState
  | .check state now => (check_and_trip config s state now).2
  | .reset tok => (manual_reset s tok).2

/-- Run a sequence of operations. -/
def breakerRun (config : CircuitBreakerConfig) (s : BreakerState)
    (ops : List BreakerOp) : BreakerState :=
  ops.foldl (breakerStep config) s

/-- Whether an operation is a `manual_reset` with a non-empty admin token
(the only transition out of the tripped state). -/
def BreakerOp.isAuthorizedReset : BreakerOp → Bool
  | .check _ _ => false
  | .reset tok => tok ≠ ""

/-- From `src/paid_trading_bot/core/types.py`: one candlestick; the
timestamp is modelled as an abstract natural number. -/
structure Candle where
  timestamp : ℕ
  «open» : ℚ
  high : ℚ
  low : ℚ
  close : ℚ
  volume : ℚ
  deriving Repr, DecidableEq

/-- From `src/paid_trading_bot/data/ohlcv_buffer.py`: bounded FIFO of
candles; `candles` lists the deque contents oldest first. -/
structure OHLCVBuffer where
  maxlen : ℕ
  candles : List Candle
  deriving Repr, DecidableEq

/-- `OHLCVBuffer.__init__` raises on `maxlen ≤ 0`, otherwise starts empty. -/
def mkOHLCVBuffer (maxlen : ℤ) : Except String OHLCVBuffer :=
  if maxlen ≤ 0 then Except.error ("maxlen must be > 0")
  else Except.ok { maxlen := maxlen.toNat, candles := [] }

/-- `OHLCVBuffer.append`: the bounded deque keeps the last `maxlen`
elements (`List.rtake`), evicting from the front. -/
def OHLCVBuffer.append (b : OHLCVBuffer) (c : Candle) : OHLCVBuffer :=
  { b with candles := (b.candles ++ [c]).rtake b.maxlen }

/-- `OHLCVBuffer.extend`: repeated `append`, preserving order. -/
def OHLCVBuffer.extend (b : OHLCVBuffer) (cs : List Candle) : OHLCVBuffer :=
  cs.foldl OHLCVBuffer.append b

/-- `OHLCVBuffer.snapshot`: an independent ordered copy of the contents. -/
def OHLCVBuffer.snapshot (b : OHLCVBuffer) : List Candle := b.candles

/-- `OHLCVBuffer.latest`: last candle, or `none` when empty. -/
def OHLCVBuffer.latest (b : OHLCVBuffer) : Option Candle := b.candles.getLast?

/-- The EMA recurrence loop of `calculate_ema`
(`src/paid_trading_bot/data/indicators.py`): starting from `prev`, each
value `v` yields `(v - prev) * k + prev`, appended in order. -/
def emaLoop (k : ℚ) (prev : ℚ) : List ℚ → List ℚ
  | [] => []
  | v :: vs =>
    let p := (v - prev) * k + prev
    p :: emaLoop k p vs

/-- From `src/paid_trading_bot/data/indicators.py`, `calculate_ema`:
raises on `period ≤ 0`; seeds with the SMA of the first `period` values,
or the mean of all values when fewer are available, then walks the
recurrence (from index 1 in the short case, index `period` otherwise). -/
def calculate_ema (values : List ℚ) (period : ℤ) : Except String (List ℚ) :=
  if period ≤ 0 then Except.error ("period must be > 0")
  else if values.length = 0 then Except.ok []
  else
    let k : ℚ := 2 / ((period : ℚ) + 1)
    if values.length < period.toNat then
      let seed := values.sum / (values.length : ℚ)
      Except.ok (seed :: emaLoop k seed (values.drop 1))
    else
      let seed := (values.take period.toNat).sum / (period : ℚ)
      Except.ok (seed :: emaLoop k seed (values.drop period.toNat))

/-- `rs_to_rsi` from `calculate_rsi`. -/
def rs_to_rsi (rs : ℚ) : ℚ := 100 - (100 / (1 + rs))

/-- The Wilder-smoothing loop of `calculate_rsi`: consumes (gain, loss)
pairs past the seed window, updating both averages and emitting one RSI
value per pair. -/
def rsiLoop (p : ℚ) (avg_gain avg_loss : ℚ) : List (ℚ × ℚ) → List ℚ
  | [] => []
  | gl :: rest =>
    let ag := (avg_gain * (p - 1) + gl.1) / p
    let al := (avg_loss * (p - 1) + gl.2) / p
    (if al = 0 then (100 : ℚ) else rs_to_rsi (ag / al)) :: rsiLoop p ag al rest

/-- From `src/paid_trading_bot/data/indicators.py`, `calculate_rsi`:
Wilder RSI over first differences of the closes. -/
def calculate_rsi (closes : List ℚ) (period : ℤ) : Except String (List ℚ) :=
  if period ≤ 0 then Except.error ("period must be > 0")
  else if closes.length < 2 then Except.ok []
  else
    let deltas := List.zipWith (fun prev cur => cur - prev) closes (closes.drop 1)
    let gains := deltas.map (fun d => max d 0)
    let losses := deltas.map (fun d => max (-d) 0)
    if gains.length < period.toNat then Except.ok []
    else
      let avg_gain := (gains.take period.toNat).sum / (period : ℚ)
      let avg_loss := (losses.take period.toNat).sum / (period : ℚ)
      let first := if avg_loss = 0 then (100 : ℚ) else rs_to_rsi (avg_gain / avg_loss)
      Except.ok (first :: rsiLoop (period : ℚ)
        avg_gain avg_loss ((gains.drop period.toNat).zip (losses.drop period.toNat)))

/-- The true range of one bar against the previous close. -/
def trueRange (high low prev_close : ℚ) : ℚ :=
  max (high - low) (max |high - prev_close| |low - prev_close|)

/-- The Wilder-smoothing loop of `calculate_atr`. -/
def atrLoop (p : ℚ) (prev_atr : ℚ) : List ℚ → List ℚ
  | [] => []
  | tr :: rest =>
    let a := (prev_atr * (p - 1) + tr) / p
    a :: atrLoop p a rest

/-- From `src/paid_trading_bot/data/indicators.py`, `calculate_atr`:
true ranges over the common prefix of the three series, then Wilder
smoothing seeded with the SMA of the first `period` true ranges. -/
def calculate_atr (highs lows closes : List ℚ) (period : ℤ) :
    Except String (List ℚ) :=
  if period ≤ 0 then Except.error ("period must be > 0")
  else
    let n := min (min highs.length lows.length) closes.length
    if n < 2 then Except.ok []
    else
      let true_ranges := List.zipWith3 trueRange
        ((highs.take n).drop 1) ((lows.take n).drop 1) (closes.take n)
      if true_ranges.length < period.toNat then Except.ok []
      else
        let seed := (true_ranges.take period.toNat).sum / (period : ℚ)
        Except.ok (seed :: atrLoop (period : ℚ) seed (true_ranges.drop period.toNat))

/-- From `src/paid_trading_bot/core/types.py`: trend bias enum. -/
inductive TrendBias where
  | BULLISH
  | BEARISH
  | NEUTRAL
  deriving Repr, DecidableEq

/-- From `src/paid_trading_bot/core/types.py`: AI gate status enum. -/
inductive AIGateStatus where
  | OPEN
  | COOLDOWN
  | HALT
  deriving Repr, DecidableEq

/-- From `src/paid_trading_bot/core/types.py`: an entry signal. -/
structure EntrySignal where
  side : TradeSide
  entry_price : ℚ
  stop_loss : ℚ
  take_profit_1 : ℚ
  take_profit_2 : ℚ
  atr : ℚ
  deriving Repr, DecidableEq

/-- From `src/paid_trading_bot/strategy/entry_logic.py`, `evaluate_entry`:
gates on the AI status, trend bias and position count, then the 5-minute
pullback entry over EMA-20 / RSI-14 / ATR-14. -/
def evaluate_entry (ohlcv_5m : List Candle) (trend_bias : TrendBias)
    (ai_gate : AIGateStatus) (current_positions max_positions : ℤ) :
    Option EntrySignal :=
  if ai_gate ≠ AIGateStatus.OPEN then none
  else if trend_bias = TrendBias.NEUTRAL then none
  else if current_positions ≥ max_positions then none
  else
    let closes := ohlcv_5m.map Candle.close
    let highs := ohlcv_5m.map Candle.high
    let lows := ohlcv_5m.map Candle.low
    match calculate_ema closes 20, calculate_rsi closes 14,
        calculate_atr highs lows closes 14 with
    | Except.ok ema_20, Except.ok rsi, Except.ok atr =>
      match closes.getLast?, ema_20.getLast?, rsi.getLast?, atr.getLast? with
      | some current_price, some current_ema20, some current_rsi, some current_atr =>
        let pullback_threshold := current_ema20 * (3 / 1000)
        let is_near_ema := |current_price - current_ema20| < pullback_threshold
        if ¬ is_near_ema then none
        else if trend_bias = TrendBias.BULLISH then
          if current_rsi > 45 ∧ current_price > current_ema20 then
            some { side := TradeSide.LONG
                   entry_price := current_price
                   stop_loss := current_price - (3/2) * current_atr
                   take_profit_1 := current_price + (3/2) * current_atr
                   take_profit_2 := current_price + 3 * current_atr
                   atr := current_atr }
          else none
        else if trend_bias = TrendBias.BEARISH then
          if current_rsi < 55 ∧ current_price < current_ema20 then
            some { side := TradeSide.SHORT
                   entry_price := current_price
                   stop_loss := current_price + (3/2) * current_atr
                   take_profit_1 := current_price - (3/2) * current_atr
                   take_profit_2 := current_price - 3 * current_atr
                   atr := current_atr }
          else none
        else none
      | _, _, _, _ => none
    | _, _, _ => none

/-- From `src/paid_trading_bot/core/types.py`: an open position.  The
`opened_at` datetime is modelled as an abstract natural number. -/
structure Position where
  id : String
  symbol : String
  side : TradeSide
  entry_price : ℚ
  stop_loss : ℚ
  take_profit_1 : ℚ
  take_profit_2 : ℚ
  entry_atr : ℚ
  size : ℚ
  opened_at : ℕ
  tp1_hit : Bool := false
  highest_price : Option ℚ := none
  lowest_price : Option ℚ := none
  deriving Repr, DecidableEq

/-- From `src/paid_trading_bot/core/types.py`: an exit signal. -/
structure ExitSignal where
  position_id : String
  exit_type : String
  exit_price : ℚ
  size_percent : ℚ
  deriving Repr, DecidableEq

/-- From `src/paid_trading_bot/strategy/exit_logic.py`, `manage_exit`:
stop-loss / TP1-partial / trailing-stop evaluation for one position at
one price. -/
def manage_exit (position : Position) (current_price : ℚ) :
    Option ExitSignal :=
  match position.side with
  | TradeSide.LONG =>
    if current_price ≤ position.stop_loss then
      some { position_id := position.id, exit_type := "STOP_LOSS"
             exit_price := current_price, size_percent := 100 }
    else if ¬ position.tp1_hit ∧ current_price ≥ position.take_profit_1 then
      some { position_id := position.id, exit_type := "TAKE_PROFIT_1"
             exit_price := current_price, size_percent := 50 }
    else
      match position.highest_price with
      | some hp =>
        if position.tp1_hit ∧ current_price ≤ hp - 1 * position.entry_atr then
          some { position_id := position.id, exit_type := "TRAILING_STOP"
                 exit_price := current_price, size_percent := 100 }
        else none
      | none => none
  | TradeSide.SHORT =>
    if current_price ≥ position.stop_loss then
      some { position_id := position.id, exit_type := "STOP_LOSS"
             exit_price := current_price, size_percent := 100 }
    else if ¬ position.tp1_hit ∧ current_price ≤ position.take_profit_1 then
      some { position_id := position.id, exit_type := "TAKE_PROFIT_1"
             exit_price := current_price, size_percent := 50 }
    else
      match position.lowest_price with
      | some lp =>
        if position.tp1_hit ∧ current_price ≥ lp + 1 * position.entry_atr then
          some { position_id := position.id, exit_type := "TRAILING_STOP"
                 exit_price := current_price, size_percent := 100 }
        else none
      | none => none

/-- Modelled from the spec: the Position Manager's application of an
emitted exit signal to the position at the end of the tick, which is
missing from the source tree (the `Position.tp1_hit` field is declared in
`core/types.py` and read by `manage_exit`, but no source path ever sets
it).  Per the spec's exit state machine, a `TAKE_PROFIT_1` partial sets
`tp1_hit` and moves the stop to `entry_price` (breakeven); other signals
leave the position record unchanged here. -/
def apply_exit_signal (position : Position) (sig : Option ExitSignal) :
    Position :=
  match sig with
  | some s =>
    if s.exit_type = "TAKE_PROFIT_1" then
      { position with tp1_hit := true, stop_loss := position.entry_price }
    else position
  | none => position

/-- A 15-bar 5-minute input whose bars violate the data-model candle
invariant: from the second bar on, high and low both equal the previous
close while the close itself keeps rising, so every true range is zero
although the closes move.  Used to probe `evaluate_entry` outside the
well-formed-candle domain. -/
def degenerateCandles : List Candle :=
  [ ⟨0, 100, 100, 100, 100, 0⟩,
    ⟨1, 10001/100, 100, 100, 10001/100, 0⟩,
    ⟨2, 10002/100, 10001/100, 10001/100, 10002/100, 0⟩,
    ⟨3, 10003/100, 10002/100, 10002/100, 10003/100, 0⟩,
    ⟨4, 10004/100, 10003/100, 10003/100, 10004/100, 0⟩,
    ⟨5, 10005/100, 10004/100, 10004/100, 10005/100, 0⟩,
    ⟨6, 10006/100, 10005/100, 10005/100, 10006/100, 0⟩,
    ⟨7, 10007/100, 10006/100, 10006/100, 10007/100, 0⟩,
    ⟨8, 10008/100, 10007/100, 10007/100, 10008/100, 0⟩,
    ⟨9, 10009/100, 10008/100, 10008/100, 10009/100, 0⟩,
    ⟨10, 10010/100, 10009/100, 10009/100, 10010/100, 0⟩,
    ⟨11, 10011/100, 10010/100, 10010/100, 10011/100, 0⟩,
    ⟨12, 10012/100, 10011/100, 10011/100, 10012/100, 0⟩,
    ⟨13, 10013/100, 10012/100, 10012/100, 10013/100, 0⟩,
    ⟨14, 10014/100, 10013/100, 10013/100, 10014/100, 0⟩ ]

/-- A 15-bar well-formed 5-minute input: closes rise by 1/100 per bar,
each bar's high and low straddle its close by 1/100.  Satisfies the
data-model candle invariant and produces a LONG entry under a bullish
bias. -/
def wellFormedCandles : List Candle :=
  [ ⟨0, 100, 10001/100, 9999/100, 100, 0⟩,
    ⟨1, 10001/100, 10002/100, 10000/100, 10001/100, 0⟩,
    ⟨2, 10002/100, 10003/100, 10001/100, 10002/100, 0⟩,
    ⟨3, 10003/100, 10004/100, 10002/100, 10003/100, 0⟩,
    ⟨4, 10004/100, 10005/100, 10003/100, 10004/100, 0⟩,
    ⟨5, 10005/100, 10006/100, 10004/100, 10005/100, 0⟩,
    ⟨6, 10006/100, 10007/100, 10005/100, 10006/100, 0⟩,
    ⟨7, 10007/100, 10008/100, 10006/100, 10007/100, 0⟩,
    ⟨8, 10008/100, 10009/100, 10007/100, 10008/100, 0⟩,
    ⟨9, 10009/100, 10010/100, 10008/100, 10009/100, 0⟩,
    ⟨10, 10010/100, 10011/100, 10009/100, 10010/100, 0⟩,
    ⟨11, 10011/100, 10012/100, 10010/100, 10011/100, 0⟩,
    ⟨12, 10012/100, 10013/100, 10011/100, 10012/100, 0⟩,
    ⟨13, 10013/100, 10014/100, 10012/100, 10013/100, 0⟩,
    ⟨14, 10014/100, 10015/100, 10013/100, 10014/100, 0⟩ ]

/-!  Theorems.  -/

/-- C1: if `validate_trade_request` approves (reason `ALL_CHECKS_PASSED`),
then the computed trade risk percent is at most
`max_risk_per_trade_percent`, and the open-position, daily-trade,
consecutive-loss, drawdown and daily-loss limits all hold strictly. -/
theorem validate_trade_request_approved_bounds
    (request : TradeRequest) (account_state : AccountState)
    (risk_limits : HardRiskLimits)
    (h : (validate_trade_request request account_state risk_limits).approved = true) :
    calculate_trade_risk_percent request.position_size request.entry_price
        request.stop_loss account_state.balance
      ≤ risk_limits.max_risk_per_trade_percent ∧
    account_state.open_positions < risk_limits.max_open_positions ∧
    account_state.trades_today < risk_limits.max_trades_per_day ∧
    account_state.consecutive_losses < risk_limits.max_consecutive_losses ∧
    account_state.current_drawdown_percent < risk_limits.max_drawdown_percent ∧
    account_state.daily_pnl_percent > -risk_limits.daily_loss_cap_percent := by
  unfold validate_trade_request at h
  split_ifs at h with h1 h2 h3 h4 h5
  by_cases h6 : risk_limits.max_risk_per_trade_percent <
      calculate_trade_risk_percent request.position_size request.entry_price
        request.stop_loss account_state.balance
  · rw [if_pos h6] at h
    simp at h
  · exact ⟨not_lt.mp h6, not_le.mp h4, not_le.mp h5, not_le.mp h3,
      not_le.mp h2, not_le.mp h1⟩

/-- Witness for C1 at a concrete approved request. -/
theorem validate_trade_request_approved_bounds_witness :
    (validate_trade_request
        { symbol := "BTC/USDT", side := TradeSide.LONG, entry_price := 100,
          stop_loss := 99, position_size := 1, timestamp := 0 }
        { balance := 10000, daily_pnl_percent := 0,
          current_drawdown_percent := 0, consecutive_losses := 0,
          open_positions := 0, trades_today := 0 }
        defaultLimits).approved = true ∧
    (calculate_trade_risk_percent 1 100 99 10000 ≤ (1 : ℚ) ∧
      (0 : ℤ) < 2 ∧ (0 : ℤ) < 6 ∧ (0 : ℤ) < 5 ∧ (0 : ℚ) < 10 ∧
      (0 : ℚ) > -3) :=
  ⟨by norm_num [validate_trade_request, calculate_trade_risk_percent, defaultLimits],
    validate_trade_request_approved_bounds
      { symbol := "BTC/USDT", side := TradeSide.LONG, entry_price := 100,
        stop_loss := 99, position_size := 1, timestamp := 0 }
      { balance := 10000, daily_pnl_percent := 0,
        current_drawdown_percent := 0, consecutive_losses := 0,
        open_positions := 0, trades_today := 0 }
      defaultLimits
      (by norm_num [validate_trade_request, calculate_trade_risk_percent, defaultLimits])⟩

/-- C7: the validator checks the daily-loss cap first: whenever
`daily_pnl_percent ≤ -daily_loss_cap_percent` it rejects with reason
`DAILY_LOSS_CAP_HIT`, whatever the rest of the input looks like. -/
theorem validate_trade_request_daily_loss_first
    (request : TradeRequest) (account_state : AccountState)
    (risk_limits : HardRiskLimits)
    (h : account_state.daily_pnl_percent ≤ -risk_limits.daily_loss_cap_percent) :
    (validate_trade_request request account_state risk_limits).approved = false ∧
    (validate_trade_request request account_state risk_limits).reason
      = "DAILY_LOSS_CAP_HIT" := by
  unfold validate_trade_request
  rw [if_pos h]
  exact ⟨rfl, rfl⟩

/-- Witness for C7: the spec's scenario S4, with every later check also
failing, still reports the daily-loss cap. -/
theorem validate_trade_request_daily_loss_first_witness :
    ((-3 : ℚ) ≤ -(3 : ℚ)) ∧
    ((validate_trade_request
        { symbol := "BTC/USDT", side := TradeSide.LONG, entry_price := 100,
          stop_loss := 99, position_size := 1000000, timestamp := 0 }
        { balance := 1000, daily_pnl_percent := -3,
          current_drawdown_percent := 50, consecutive_losses := 99,
          open_positions := 99, trades_today := 99 }
        defaultLimits).approved = false ∧
      (validate_trade_request
        { symbol := "BTC/USDT", side := TradeSide.LONG, entry_price := 100,
          stop_loss := 99, position_size := 1000000, timestamp := 0 }
        { balance := 1000, daily_pnl_percent := -3,
          current_drawdown_percent := 50, consecutive_losses := 99,
          open_positions := 99, trades_today := 99 }
        defaultLimits).reason = "DAILY_LOSS_CAP_HIT") :=
  ⟨by norm_num, validate_trade_request_daily_loss_first _ _ _
    (by norm_num [defaultLimits])⟩

/-- C9: on a non-positive balance or a zero stop distance,
`calculate_trade_risk_percent` returns exactly 0, and consequently the
validator can never reject such a request with `RISK_PER_TRADE_EXCEEDED`
when the per-trade limit is positive. -/
theorem degenerate_trade_risk_is_zero :
    (∀ (position_size entry_price stop_loss account_balance : ℚ),
      0 < position_size →
      (account_balance ≤ 0 ∨ entry_price = stop_loss) →
      calculate_trade_risk_percent position_size entry_price stop_loss
        account_balance = 0) ∧
    (∀ (request : TradeRequest) (account_state : AccountState)
        (risk_limits : HardRiskLimits),
      (account_state.balance ≤ 0 ∨ request.entry_price = request.stop_loss) →
      0 < risk_limits.max_risk_per_trade_percent →
      (validate_trade_request request account_state risk_limits).reason
        ≠ "RISK_PER_TRADE_EXCEEDED") := by
  have key : ∀ (ps e s b : ℚ), (b ≤ 0 ∨ e = s) →
      calculate_trade_risk_percent ps e s b = 0 := by
    intro ps e s b hdeg
    unfold calculate_trade_risk_percent
    rcases hdeg with hb | hes
    · rw [if_pos hb]
    · rw [hes]
      simp
  refine ⟨fun ps e s b _ hdeg => key ps e s b hdeg, ?_⟩
  intro request account_state risk_limits hdeg hpos
  unfold validate_trade_request
  split_ifs with h1 h2 h3 h4 h5
  · simp
  · simp
  · simp
  · simp
  · simp
  · rw [if_neg ?_]
    · simp
    · rw [key _ _ _ _ hdeg]
      exact not_lt.mpr (le_of_lt hpos)

/-- Witness for C9 on a zero stop distance with a positive balance. -/
theorem degenerate_trade_risk_is_zero_witness :
    ((0 : ℚ) < 5 ∧ ((1000 : ℚ) ≤ 0 ∨ (100 : ℚ) = 100) ∧
      calculate_trade_risk_percent 5 100 100 1000 = 0) ∧
    (((1000 : ℚ) ≤ 0 ∨ (100 : ℚ) = 100) ∧ (0 : ℚ) < 1 ∧
      (validate_trade_request
        { symbol := "BTC/USDT", side := TradeSide.LONG, entry_price := 100,
          stop_loss := 100, position_size := 5, timestamp := 0 }
        { balance := 1000, daily_pnl_percent := 0,
          current_drawdown_percent := 0, consecutive_losses := 0,
          open_positions := 0, trades_today := 0 }
        defaultLimits).reason ≠ "RISK_PER_TRADE_EXCEEDED") :=
  ⟨⟨by norm_num, Or.inr rfl,
      degenerate_trade_risk_is_zero.1 5 100 100 1000 (by norm_num) (Or.inr rfl)⟩,
    ⟨Or.inr rfl, by norm_num,
      degenerate_trade_risk_is_zero.2 _ _ _ (Or.inr rfl)
        (by norm_num [defaultLimits])⟩⟩

/-- C2: the sized position never risks more than
`max_risk_per_trade_percent` of the balance, for any requested risk and
any advisory multiplier (amplifying multipliers are clamped to 1); in
particular S5: balance 1000, requested 1%, multiplier 2, entry 100,
stop 99 yields size 10. -/
theorem calculate_position_size_caps_risk :
    (∀ (account_balance risk_percent entry_price stop_loss_price
        ai_risk_multiplier : ℚ) (hard_limits : Option HardRiskLimits),
      0 ≤ account_balance →
      0 < |entry_price - stop_loss_price| →
      0 ≤ (hard_limits.getD defaultLimits).max_risk_per_trade_percent →
      calculate_position_size account_balance risk_percent entry_price
          stop_loss_price ai_risk_multiplier hard_limits
        * |entry_price - stop_loss_price|
        ≤ account_balance
          * (hard_limits.getD defaultLimits).max_risk_per_trade_percent / 100) ∧
    calculate_position_size 1000 1 100 99 2 none = 10 := by
  constructor
  · intro b r e s ai lims hb hd hmx
    have hrhs : 0 ≤ b * (lims.getD defaultLimits).max_risk_per_trade_percent / 100 :=
      div_nonneg (mul_nonneg hb hmx) (by norm_num)
    unfold calculate_position_size
    by_cases hb0 : b ≤ 0
    · rw [if_pos hb0, zero_mul]
      exact hrhs
    · rw [if_neg hb0]
      by_cases he : max (min r (lims.getD defaultLimits).max_risk_per_trade_percent) 0
          * min (max ai 0) 1 ≤ 0
      · rw [if_pos he, zero_mul]
        exact hrhs
      · rw [if_neg he, if_neg (not_le.mpr hd)]
        by_cases hps : b * (max (min r (lims.getD defaultLimits).max_risk_per_trade_percent) 0
            * min (max ai 0) 1 / 100) / |e - s| < 0
        · rw [if_pos hps, zero_mul]
          exact hrhs
        · rw [if_neg hps, div_mul_cancel₀ _ (ne_of_gt hd)]
          have hrc0 : (0 : ℚ) ≤
              max (min r (lims.getD defaultLimits).max_risk_per_trade_percent) 0 :=
            le_max_right _ _
          have hrcmx : max (min r (lims.getD defaultLimits).max_risk_per_trade_percent) 0
              ≤ (lims.getD defaultLimits).max_risk_per_trade_percent :=
            max_le (min_le_right _ _) hmx
          have hcl1 : min (max ai 0) 1 ≤ (1 : ℚ) := min_le_right _ _
          have heffmx : max (min r (lims.getD defaultLimits).max_risk_per_trade_percent) 0
              * min (max ai 0) 1 ≤ (lims.getD defaultLimits).max_risk_per_trade_percent := by
            calc max (min r (lims.getD defaultLimits).max_risk_per_trade_percent) 0
                  * min (max ai 0) 1
                ≤ max (min r (lims.getD defaultLimits).max_risk_per_trade_percent) 0 * 1 :=
                  mul_le_mul_of_nonneg_left hcl1 hrc0
              _ = max (min r (lims.getD defaultLimits).max_risk_per_trade_percent) 0 :=
                  mul_one _
              _ ≤ (lims.getD defaultLimits).max_risk_per_trade_percent := hrcmx
          have hble : 0 ≤ b := hb
          calc b * (max (min r (lims.getD defaultLimits).max_risk_per_trade_percent) 0
                * min (max ai 0) 1 / 100)
              ≤ b * ((lims.getD defaultLimits).max_risk_per_trade_percent / 100) := by
                apply mul_le_mul_of_nonneg_left _ hble
                linarith
            _ = b * (lims.getD defaultLimits).max_risk_per_trade_percent / 100 := by
                ring
  · norm_num [calculate_position_size, defaultLimits, min_def, max_def]

/-- Witness for C2's universally quantified part at the S5 input. -/
theorem calculate_position_size_caps_risk_witness :
    ((0 : ℚ) ≤ 1000 ∧ (0 : ℚ) < |(100 : ℚ) - 99| ∧
      (0 : ℚ) ≤ ((none : Option HardRiskLimits).getD
        defaultLimits).max_risk_per_trade_percent) ∧
    calculate_position_size 1000 1 100 99 2 none * |(100 : ℚ) - 99|
      ≤ 1000 * ((none : Option HardRiskLimits).getD
          defaultLimits).max_risk_per_trade_percent / 100 :=
  ⟨⟨by norm_num, by norm_num, by norm_num [defaultLimits]⟩,
    calculate_position_size_caps_risk.1 1000 1 100 99 2 none (by norm_num)
      (by norm_num) (by norm_num [defaultLimits])⟩

/-- C5: a pre-TP1 LONG position with the price at or above
`take_profit_1` (and above the stop) gets a `TAKE_PROFIT_1` partial exit
of 50%, after which the position records `tp1_hit` and its stop sits at
`entry_price` (breakeven); mirrored for SHORT.  The post-tick position
update is the spec-mandated behaviour, modelled by `apply_exit_signal`. -/
theorem manage_exit_tp1_breakeven (position : Position) (current_price : ℚ) :
    (position.side = TradeSide.LONG → position.tp1_hit = false →
      current_price ≥ position.take_profit_1 →
      current_price > position.stop_loss →
      manage_exit position current_price
        = some { position_id := position.id, exit_type := "TAKE_PROFIT_1",
                 exit_price := current_price, size_percent := 50 } ∧
      (apply_exit_signal position (manage_exit position current_price)).tp1_hit
        = true ∧
      (apply_exit_signal position (manage_exit position current_price)).stop_loss
        = position.entry_price) ∧
    (position.side = TradeSide.SHORT → position.tp1_hit = false →
      current_price ≤ position.take_profit_1 →
      current_price < position.stop_loss →
      manage_exit position current_price
        = some { position_id := position.id, exit_type := "TAKE_PROFIT_1",
                 exit_price := current_price, size_percent := 50 } ∧
      (apply_exit_signal position (manage_exit position current_price)).tp1_hit
        = true ∧
      (apply_exit_signal position (manage_exit position current_price)).stop_loss
        = position.entry_price) := by
  constructor
  · intro hside htp1 htp hst
    have hm : manage_exit position current_price
        = some { position_id := position.id, exit_type := "TAKE_PROFIT_1",
                 exit_price := current_price, size_percent := 50 } := by
      simp only [manage_exit, hside]
      rw [if_neg (not_le.mpr hst), if_pos ⟨by simp [htp1], htp⟩]
    refine ⟨hm, ?_, ?_⟩ <;>
      simp [hm, apply_exit_signal]
  · intro hside htp1 htp hst
    have hm : manage_exit position current_price
        = some { position_id := position.id, exit_type := "TAKE_PROFIT_1",
                 exit_price := current_price, size_percent := 50 } := by
      simp only [manage_exit, hside]
      rw [if_neg ((not_le.mpr hst :
            ¬ current_price ≥ position.stop_loss)),
        if_pos ⟨by simp [htp1], htp⟩]
    refine ⟨hm, ?_, ?_⟩ <;>
      simp [hm, apply_exit_signal]

/-- Witness for C5: both the LONG and the SHORT instance at concrete
positions. -/
theorem manage_exit_tp1_breakeven_witness :
    (manage_exit
        { id := "1", symbol := "BTC/USDT", side := TradeSide.LONG,
          entry_price := 100, stop_loss := 99, take_profit_1 := 101,
          take_profit_2 := 102, entry_atr := 1, size := 1, opened_at := 0 }
        101
      = some { position_id := "1", exit_type := "TAKE_PROFIT_1",
               exit_price := 101, size_percent := 50 } ∧
      (apply_exit_signal
        { id := "1", symbol := "BTC/USDT", side := TradeSide.LONG,
          entry_price := 100, stop_loss := 99, take_profit_1 := 101,
          take_profit_2 := 102, entry_atr := 1, size := 1, opened_at := 0 }
        (manage_exit
          { id := "1", symbol := "BTC/USDT", side := TradeSide.LONG,
            entry_price := 100, stop_loss := 99, take_profit_1 := 101,
            take_profit_2 := 102, entry_atr := 1, size := 1, opened_at := 0 }
          101)).tp1_hit = true ∧
      (apply_exit_signal
        { id := "1", symbol := "BTC/USDT", side := TradeSide.LONG,
          entry_price := 100, stop_loss := 99, take_profit_1 := 101,
          take_profit_2 := 102, entry_atr := 1, size := 1, opened_at := 0 }
        (manage_exit
          { id := "1", symbol := "BTC/USDT", side := TradeSide.LONG,
            entry_price := 100, stop_loss := 99, take_profit_1 := 101,
            take_profit_2 := 102, entry_atr := 1, size := 1, opened_at := 0 }
          101)).stop_loss = 100) :=
  (manage_exit_tp1_breakeven
    { id := "1", symbol := "BTC/USDT", side := TradeSide.LONG,
      entry_price := 100, stop_loss := 99, take_profit_1 := 101,
      take_profit_2 := 102, entry_atr := 1, size := 1, opened_at := 0 }
    101).1 rfl rfl (by norm_num) (by norm_num)

/-- C3: a tripped breaker is a latch.  Every further `check_and_trip`
returns `true` and leaves the whole state (including `trip_reason` and
`trip_timestamp`) unchanged; `manual_reset` with the empty token returns
`false` and changes nothing; `manual_reset` with any non-empty token
returns `true` and untrips; and along any operation sequence containing
no reset with a non-empty token the state stays exactly as it was. -/
theorem circuit_breaker_latch (config : CircuitBreakerConfig)
    (s : BreakerState) (h : s.is_tripped = true) :
    (∀ (state : SystemState) (now : ℕ),
      check_and_trip config s state now = (true, s)) ∧
    manual_reset s ("") = (false, s) ∧
    (∀ tok : String, tok ≠ "" →
      manual_reset s tok = (true, BreakerState.init)) ∧
    (∀ ops : List BreakerOp,
      (∀ op ∈ ops, op.isAuthorizedReset = false) →
      breakerRun config s ops = s) := by
  have hstep : ∀ op : BreakerOp, op.isAuthorizedReset = false →
      ∀ t : BreakerState, t.is_tripped = true → breakerStep config t op = t := by
    intro op hop t ht
    cases op with
    | check state now =>
      simp [breakerStep, check_and_trip, ht]
    | reset tok =>
      have htok : tok = "" := by
        simpa [BreakerOp.isAuthorizedReset] using hop
      simp [breakerStep, manual_reset, htok]
  refine ⟨?_, ?_, ?_, ?_⟩
  · intro state now
    simp [check_and_trip, h]
  · simp [manual_reset]
  · intro tok htok
    simp [manual_reset, htok, BreakerState.init]
  · intro ops hops
    induction ops with
    | nil => rfl
    | cons op rest ih =>
      have h1 : breakerStep config s op = s :=
        hstep op (hops op (List.mem_cons_self op rest)) s h
      have : breakerRun config s (op :: rest) = breakerRun config s rest := by
        simp [breakerRun, h1]
      rw [this]
      exact ih (fun o ho => hops o (List.mem_cons_of_mem op ho))

/-- Witness for C3: the breaker tripped by scenario S6, run through a
further check and an unauthorized reset, then an authorized reset. -/
theorem circuit_breaker_latch_witness :
    (BreakerState.trip ("EMERGENCY_DRAWDOWN: 10%") 0).is_tripped = true ∧
    (check_and_trip ⟨10, 5, 1⟩ (BreakerState.trip ("EMERGENCY_DRAWDOWN: 10%") 0)
        ⟨0, "HEALTHY", none, 0, 0⟩ 7
      = (true, BreakerState.trip ("EMERGENCY_DRAWDOWN: 10%") 0)) ∧
    manual_reset (BreakerState.trip ("EMERGENCY_DRAWDOWN: 10%") 0) ("")
      = (false, BreakerState.trip ("EMERGENCY_DRAWDOWN: 10%") 0) ∧
    manual_reset (BreakerState.trip ("EMERGENCY_DRAWDOWN: 10%") 0) ("x")
      = (true, BreakerState.init) ∧
    breakerRun ⟨10, 5, 1⟩ (BreakerState.trip ("EMERGENCY_DRAWDOWN: 10%") 0)
        [BreakerOp.check ⟨20, "CRITICAL", some ("anomaly"), 9, 9⟩ 8,
          BreakerOp.reset ("")]
      = BreakerState.trip ("EMERGENCY_DRAWDOWN: 10%") 0 := by
  have h := circuit_breaker_latch ⟨10, 5, 1⟩
    (BreakerState.trip ("EMERGENCY_DRAWDOWN: 10%") 0) rfl
  exact ⟨rfl, h.1 _ 7, h.2.1, h.2.2.1 ("x") (by simp),
    h.2.2.2 _ (by simp [BreakerOp.isAuthorizedReset])⟩

/-- C10: on an untripped breaker, the recorded trip reason follows the
fixed evaluation order drawdown, sentinel-critical, API failures,
balance mismatch; in particular simultaneous drawdown and sentinel
conditions record an `EMERGENCY_DRAWDOWN` reason. -/
theorem check_and_trip_reason_priority (config : CircuitBreakerConfig)
    (s : BreakerState) (state : SystemState) (now : ℕ)
    (h : s.is_tripped = false) :
    (state.drawdown_percent ≥ config.emergency_drawdown_percent →
      (check_and_trip config s state now).2.trip_reason
        = some ("EMERGENCY_DRAWDOWN: " ++ toString state.drawdown_percent ++ "%") ∧
      ∃ rest, (check_and_trip config s state now).2.trip_reason
        = some ("EMERGENCY_DRAWDOWN" ++ rest)) ∧
    (¬ state.drawdown_percent ≥ config.emergency_drawdown_percent →
      state.sentinel_status.toUpper = "CRITICAL" →
      (check_and_trip config s state now).2.trip_reason
        = some ("SENTINEL_CRITICAL: " ++ optStr state.sentinel_reason)) ∧
    (¬ state.drawdown_percent ≥ config.emergency_drawdown_percent →
      ¬ state.sentinel_status.toUpper = "CRITICAL" →
      state.api_consecutive_failures ≥ config.max_api_failures →
      (check_and_trip config s state now).2.trip_reason
        = some ("API_FAILURES: " ++ toString state.api_consecutive_failures)) ∧
    (¬ state.drawdown_percent ≥ config.emergency_drawdown_percent →
      ¬ state.sentinel_status.toUpper = "CRITICAL" →
      ¬ state.api_consecutive_failures ≥ config.max_api_failures →
      state.balance_discrepancy_percent > config.balance_tolerance_percent →
      (check_and_trip config s state now).2.trip_reason
        = some ("BALANCE_MISMATCH: " ++ toString state.balance_discrepancy_percent
          ++ "%")) := by
  refine ⟨?_, ?_, ?_, ?_⟩
  · intro h1
    have hr : (check_and_trip config s state now).2.trip_reason
        = some ("EMERGENCY_DRAWDOWN: " ++ toString state.drawdown_percent ++ "%") := by
      simp [check_and_trip, h, tripConditions, List.find?, h1, BreakerState.trip]
    refine ⟨hr, ": " ++ toString state.drawdown_percent ++ "%", ?_⟩
    rw [hr]
    rfl
  · intro h1 h2
    simp [check_and_trip, h, tripConditions, List.find?, h1, h2, BreakerState.trip]
  · intro h1 h2 h3
    simp [check_and_trip, h, tripConditions, List.find?, h1, h2, h3, BreakerState.trip]
  · intro h1 h2 h3 h4
    simp [check_and_trip, h, tripConditions, List.find?, h1, h2, h3, h4,
      BreakerState.trip]

/-- Witness for C10: drawdown at the emergency threshold together with a
CRITICAL sentinel records the drawdown reason. -/
theorem check_and_trip_reason_priority_witness :
    ((10 : ℚ) ≥ 10) ∧
    ((check_and_trip ⟨10, 5, 1⟩ BreakerState.init
        ⟨10, "CRITICAL", some ("anomaly"), 0, 0⟩ 0).2.trip_reason
      = some ("EMERGENCY_DRAWDOWN: " ++ toString (10 : ℚ) ++ "%") ∧
    ∃ rest, (check_and_trip ⟨10, 5, 1⟩ BreakerState.init
        ⟨10, "CRITICAL", some ("anomaly"), 0, 0⟩ 0).2.trip_reason
      = some ("EMERGENCY_DRAWDOWN" ++ rest)) :=
  ⟨le_refl 10,
    (check_and_trip_reason_priority ⟨10, 5, 1⟩ BreakerState.init
      ⟨10, "CRITICAL", some ("anomaly"), 0, 0⟩ 0 rfl).1 (le_refl 10)⟩

/-- C4 counterexample: on `values = [1, 2]` and `period = 3` we have
`0 < len(values) < period`, yet `calculate_ema` returns a two-element
sequence, not a single-element one. -/
theorem calculate_ema_short_input_counterexample :
    calculate_ema [1, 2] 3 = Except.ok [3/2, 7/4] ∧
    ¬ ∃ x : ℚ, calculate_ema [1, 2] 3 = Except.ok [x] := by
  have h : calculate_ema [1, 2] 3 = Except.ok [3/2, 7/4] := by
    norm_num [calculate_ema, emaLoop]
  refine ⟨h, ?_⟩
  rintro ⟨x, hx⟩
  rw [h] at hx
  simp at hx

/-- C4 (amended): with `0 < len(values) < period` the EMA output starts
with the arithmetic mean of the available values and has one entry per
input value (so it is single-element exactly when `len(values) = 1`);
and `period ≤ 0` always fails with an error. -/
theorem calculate_ema_short_input (values : List ℚ) (period : ℤ) :
    (period ≤ 0 →
      calculate_ema values period = Except.error ("period must be > 0")) ∧
    (0 < period → 0 < values.length → values.length < period.toNat →
      calculate_ema values period
        = Except.ok ((values.sum / (values.length : ℚ)) ::
            emaLoop (2 / ((period : ℚ) + 1))
              (values.sum / (values.length : ℚ)) (values.drop 1)) ∧
      ∃ l, calculate_ema values period = Except.ok l ∧
        l.head? = some (values.sum / (values.length : ℚ)) ∧
        l.length = values.length) := by
  constructor
  · intro hp
    unfold calculate_ema
    rw [if_pos hp]
  · intro hp hlen hshort
    have hnz : ¬ values.length = 0 := Nat.pos_iff_ne_zero.mp hlen
    have heq : calculate_ema values period
        = Except.ok ((values.sum / (values.length : ℚ)) ::
            emaLoop (2 / ((period : ℚ) + 1))
              (values.sum / (values.length : ℚ)) (values.drop 1)) := by
      unfold calculate_ema
      rw [if_neg (not_le.mpr hp), if_neg hnz, if_pos hshort]
    refine ⟨heq, _, heq, rfl, ?_⟩
    have hloop : ∀ (k p : ℚ) (l : List ℚ), (emaLoop k p l).length = l.length := by
      intro k p l
      induction l generalizing p with
      | nil => rfl
      | cons v vs ih => simp [emaLoop, ih]
    simp [hloop, List.length_drop]
    omega

/-- Witness for C4's amended statement at `values = [1, 2]`, `period = 3`
(and the error case at `period = 0`). -/
theorem calculate_ema_short_input_witness :
    (((0 : ℤ) ≤ 0) ∧
      calculate_ema [5, 6] 0 = Except.error ("period must be > 0")) ∧
    ((0 : ℤ) < 3 ∧ 0 < ([(1 : ℚ), 2]).length ∧ ([(1 : ℚ), 2]).length < (3 : ℤ).toNat ∧
      ∃ l, calculate_ema [1, 2] 3 = Except.ok l ∧
        l.head? = some (([(1 : ℚ), 2]).sum / (([(1 : ℚ), 2]).length : ℚ)) ∧
        l.length = ([(1 : ℚ), 2]).length) :=
  ⟨⟨le_refl 0, (calculate_ema_short_input [5, 6] 0).1 (le_refl 0)⟩,
    ⟨by norm_num, by norm_num, by norm_num,
      ((calculate_ema_short_input [1, 2] 3).2 (by norm_num) (by norm_num)
        (by norm_num)).2⟩⟩

/-- Taking the last `n` of a list whose left part was already clipped to
its last `n` elements clips the concatenation the same way. -/
theorem rtake_append_rtake_left (l r : List Candle) (n : ℕ) :
    (l.rtake n ++ r).rtake n = (l ++ r).rtake n := by
  rw [List.rtake_eq_reverse_take_reverse, List.rtake_eq_reverse_take_reverse,
    List.rtake_eq_reverse_take_reverse]
  rw [List.reverse_append, List.reverse_reverse, List.reverse_append]
  congr 1
  rw [List.take_append_eq_append_take, List.take_append_eq_append_take,
    List.take_take]
  congr 1
  rw [min_eq_left (Nat.sub_le n r.reverse.length)]

/-- The contents of a buffer after `extend` are the last `maxlen`
elements of old contents plus appended candles. -/
theorem OHLCVBuffer.extend_candles (b : OHLCVBuffer) (cs : List Candle)
    (hb : b.candles.length ≤ b.maxlen) :
    (b.extend cs).candles = (b.candles ++ cs).rtake b.maxlen := by
  induction cs generalizing b with
  | nil =>
    show b.candles = _
    rw [List.append_nil, List.rtake, Nat.sub_eq_zero_of_le hb, List.drop_zero]
  | cons c rest ih =>
    show ((b.append c).extend rest).candles = _
    rw [ih (b.append c) ?_]
    · show ((b.candles ++ [c]).rtake b.maxlen ++ rest).rtake b.maxlen = _
      rw [rtake_append_rtake_left, List.append_assoc]
      rfl
    · show ((b.candles ++ [c]).rtake b.maxlen).length ≤ b.maxlen
      rw [List.rtake, List.length_drop]
      omega

/-- C8: appending `N` candles to a fresh buffer with positive `maxlen`
and taking a snapshot yields exactly the last `min(N, maxlen)` candles in
insertion order, and `latest` is the last appended candle (`none` on an
empty buffer). -/
theorem ohlcv_buffer_snapshot_last (maxlen : ℕ) (cs : List Candle)
    (h : 0 < maxlen) :
    (OHLCVBuffer.extend ⟨maxlen, []⟩ cs).snapshot
      = cs.drop (cs.length - maxlen) ∧
    (OHLCVBuffer.extend ⟨maxlen, []⟩ cs).snapshot.length
      = min cs.length maxlen ∧
    (OHLCVBuffer.extend ⟨maxlen, []⟩ cs).latest = cs.getLast? := by
  have hsnap : (OHLCVBuffer.extend ⟨maxlen, []⟩ cs).snapshot
      = cs.rtake maxlen := by
    show (OHLCVBuffer.extend ⟨maxlen, []⟩ cs).candles = _
    rw [OHLCVBuffer.extend_candles ⟨maxlen, []⟩ cs (by simp)]
    rfl
  have hdrop : cs.rtake maxlen = cs.drop (cs.length - maxlen) := rfl
  refine ⟨hsnap.trans hdrop, ?_, ?_⟩
  · rw [hsnap, hdrop, List.length_drop]
    omega
  · show (OHLCVBuffer.extend ⟨maxlen, []⟩ cs).candles.getLast? = cs.getLast?
    have hc : (OHLCVBuffer.extend ⟨maxlen, []⟩ cs).candles = cs.rtake maxlen :=
      hsnap
    rw [hc, List.rtake_eq_reverse_take_reverse, List.getLast?_reverse]
    cases hrev : cs.reverse with
    | nil =>
      have : cs = [] := List.reverse_eq_nil_iff.mp hrev
      simp [this]
    | cons x t =>
      cases maxlen with
      | zero => omega
      | succ m =>
        rw [List.take_succ_cons]
        have : cs.getLast? = some x := by
          rw [← List.head?_reverse, hrev]
          rfl
        rw [this]
        rfl

/-- Witness for C8: a buffer of capacity 2 receiving three candles keeps
the last two, in order. -/
theorem ohlcv_buffer_snapshot_last_witness :
    0 < 2 ∧
    ((OHLCVBuffer.extend ⟨2, []⟩
        [⟨1, 1, 1, 1, 1, 1⟩, ⟨2, 2, 2, 2, 2, 2⟩, ⟨3, 3, 3, 3, 3, 3⟩]).snapshot
      = [⟨2, 2, 2, 2, 2, 2⟩, ⟨3, 3, 3, 3, 3, 3⟩] ∧
    (OHLCVBuffer.extend ⟨2, []⟩
        [⟨1, 1, 1, 1, 1, 1⟩, ⟨2, 2, 2, 2, 2, 2⟩, ⟨3, 3, 3, 3, 3, 3⟩]).latest
      = some (⟨3, 3, 3, 3, 3, 3⟩ : Candle)) := by
  have h := ohlcv_buffer_snapshot_last 2
    [⟨1, 1, 1, 1, 1, 1⟩, ⟨2, 2, 2, 2, 2, 2⟩, ⟨3, 3, 3, 3, 3, 3⟩] (by norm_num)
  refine ⟨by norm_num, ?_, ?_⟩
  · rw [h.1]
    rfl
  · rw [h.2.2]
    rfl

/-- An element named by `getLast?` belongs to the list. -/
theorem mem_of_getLast_opt {l : List ℚ} {x : ℚ} (h : l.getLast? = some x) :
    x ∈ l := by
  rcases List.mem_getLast?_eq_getLast
      (h ▸ Option.mem_some_iff.mpr rfl : x ∈ l.getLast?) with ⟨hne, rfl⟩
  exact List.getLast_mem hne

/-- `getLast?.getD` peels one cons. -/
theorem getLastD_cons (a d : ℚ) (l : List ℚ) :
    (a :: l).getLast?.getD d = l.getLast?.getD a := by
  cases l with
  | nil => rfl
  | cons b t =>
    rw [List.getLast?_cons_cons]
    cases h : (b :: t).getLast? with
    | none => exact absurd h (by simp)
    | some y => rfl

/-- A true range is never negative. -/
theorem trueRange_nonneg (h l pc : ℚ) : 0 ≤ trueRange h l pc :=
  le_max_of_le_right (le_max_of_le_left (abs_nonneg _))

/-- A zero true range pins high and low to the previous close. -/
theorem high_low_eq_of_trueRange_eq_zero (h l pc : ℚ)
    (hz : trueRange h l pc = 0) : h = pc ∧ l = pc := by
  have h1 : |h - pc| ≤ 0 := by
    rw [← hz]
    exact le_max_of_le_right (le_max_left _ _)
  have h2 : |l - pc| ≤ 0 := by
    rw [← hz]
    exact le_max_of_le_right (le_max_right _ _)
  exact ⟨sub_eq_zero.mp (abs_nonpos_iff.mp h1),
    sub_eq_zero.mp (abs_nonpos_iff.mp h2)⟩

/-- Every element of a zipped true-range list is nonnegative. -/
theorem zipWith3_trueRange_nonneg (as bs cs : List ℚ) :
    ∀ t ∈ List.zipWith3 trueRange as bs cs, 0 ≤ t := by
  induction as generalizing bs cs with
  | nil => simp [List.zipWith3]
  | cons a at' ih =>
    cases bs with
    | nil => simp [List.zipWith3]
    | cons b bt =>
      cases cs with
      | nil => simp [List.zipWith3]
      | cons c ct =>
        intro t ht
        simp only [List.zipWith3] at ht
        rcases List.mem_cons.mp ht with rfl | ht'
        · exact trueRange_nonneg a b c
        · exact ih bt ct t ht'

/-- A nonnegative list with zero sum is identically zero. -/
theorem all_zero_of_sum_zero (l : List ℚ) (hn : ∀ x ∈ l, 0 ≤ x)
    (hs : l.sum = 0) : ∀ x ∈ l, x = 0 := by
  induction l with
  | nil => simp
  | cons a t ih =>
    rw [List.sum_cons] at hs
    have ha : 0 ≤ a := hn a (List.mem_cons_self a t)
    have ht : 0 ≤ t.sum :=
      List.sum_nonneg (fun x hx => hn x (List.mem_cons_of_mem a hx))
    have ha0 : a = 0 := by linarith
    have hts : t.sum = 0 := by linarith
    intro x hx
    rcases List.mem_cons.mp hx with rfl | hx'
    · exact ha0
    · exact ih (fun y hy => hn y (List.mem_cons_of_mem a hy)) hts x hx'

/-- Sum of a constant list. -/
theorem sum_of_const (l : List ℚ) (c : ℚ) (h : ∀ x ∈ l, x = c) :
    l.sum = l.length * c := by
  induction l with
  | nil => simp
  | cons a t ih =>
    have ha : a = c := h a (List.mem_cons_self a t)
    have ht := ih (fun y hy => h y (List.mem_cons_of_mem a hy))
    rw [List.sum_cons, ha, ht, List.length_cons]
    push_cast
    ring

/-- The last value of the ATR Wilder loop (seeded at `prev`) is
nonnegative, and can only vanish when the seed and every consumed true
range vanish (for smoothing constants above 1). -/
theorem atrLoop_lastD (p : ℚ) (hp : 1 < p) :
    ∀ (l : List ℚ) (prev : ℚ), 0 ≤ prev → (∀ t ∈ l, 0 ≤ t) →
    0 ≤ (atrLoop p prev l).getLast?.getD prev ∧
    ((atrLoop p prev l).getLast?.getD prev = 0 →
      prev = 0 ∧ ∀ t ∈ l, t = 0) := by
  intro l
  induction l with
  | nil =>
    intro prev hprev _
    exact ⟨hprev, fun h0 => ⟨h0, by simp⟩⟩
  | cons tr rest ih =>
    intro prev hprev hl
    have htr : 0 ≤ tr := hl tr (List.mem_cons_self tr rest)
    have hrest : ∀ t ∈ rest, 0 ≤ t :=
      fun t ht => hl t (List.mem_cons_of_mem tr ht)
    have hp0 : (0 : ℚ) < p := by linarith
    have hpm1 : (0 : ℚ) ≤ p - 1 := by linarith
    have hnum : 0 ≤ prev * (p - 1) + tr := by
      have := mul_nonneg hprev hpm1
      linarith
    have ha : 0 ≤ (prev * (p - 1) + tr) / p :=
      div_nonneg hnum (le_of_lt hp0)
    obtain ⟨ih1, ih2⟩ := ih ((prev * (p - 1) + tr) / p) ha hrest
    rw [atrLoop, getLastD_cons]
    refine ⟨ih1, fun h0 => ?_⟩
    obtain ⟨ha0, hrest0⟩ := ih2 h0
    have hnum0 : prev * (p - 1) + tr = 0 := by
      field_simp at ha0
      linarith [ha0]
    have hprev0 : prev = 0 := by
      have hm : prev * (p - 1) = 0 := by
        have := mul_nonneg hprev hpm1
        linarith
      rcases mul_eq_zero.mp hm with h | h
      · exact h
      · linarith
    refine ⟨hprev0, fun t ht => ?_⟩
    rcases List.mem_cons.mp ht with rfl | ht'
    · linarith [mul_nonneg hprev hpm1]
    · exact hrest0 t ht'

/-- The EMA loop over a constant list, seeded at the constant, stays at
the constant. -/
theorem emaLoop_const (k c : ℚ) :
    ∀ (l : List ℚ), (∀ v ∈ l, v = c) → ∀ x ∈ emaLoop k c l, x = c := by
  intro l
  induction l with
  | nil => simp [emaLoop]
  | cons v vs ih =>
    intro h x hx
    have hv : v = c := h v (List.mem_cons_self v vs)
    have hstep : (v - c) * k + c = c := by
      rw [hv]
      ring
    simp only [emaLoop] at hx
    rw [hstep] at hx
    rcases List.mem_cons.mp hx with hxc | hx'
    · exact hxc
    · exact ih (fun y hy => h y (List.mem_cons_of_mem v hy)) x hx'

/-- EMA over a non-empty constant sequence only produces the constant. -/
theorem calculate_ema_const (vs : List ℚ) (c : ℚ) (p : ℤ) (el : List ℚ)
    (hp : 0 < p) (hne : vs.length ≠ 0) (hconst : ∀ v ∈ vs, v = c)
    (heq : calculate_ema vs p = Except.ok el) : ∀ x ∈ el, x = c := by
  have hdropconst : ∀ v ∈ vs.drop 1, v = c :=
    fun v hv => hconst v (List.mem_of_mem_drop hv)
  have hdropconst2 : ∀ n : ℕ, ∀ v ∈ vs.drop n, v = c :=
    fun n v hv => hconst v (List.mem_of_mem_drop hv)
  unfold calculate_ema at heq
  rw [if_neg (not_le.mpr hp), if_neg hne] at heq
  split at heq
  · -- fewer values than the period: seed with the overall mean
    have hseed : vs.sum / (vs.length : ℚ) = c := by
      rw [sum_of_const vs c hconst]
      have : (vs.length : ℚ) ≠ 0 := Nat.cast_ne_zero.mpr hne
      field_simp
    rw [hseed] at heq
    have hel : el = c :: emaLoop (2 / ((p : ℚ) + 1)) c (vs.drop 1) :=
      (Except.ok.inj heq).symm
    intro x hx
    rw [hel] at hx
    rcases List.mem_cons.mp hx with hxc | hx'
    · exact hxc
    · exact emaLoop_const _ c (vs.drop 1) hdropconst x hx'
  · -- enough values: seed with the SMA of the first `period`
    next hlong =>
      have htakeconst : ∀ v ∈ vs.take p.toNat, v = c :=
        fun v hv => hconst v (List.mem_of_mem_take hv)
      have htlen : (vs.take p.toNat).length = p.toNat := by
        rw [List.length_take]
        omega
      have hcastp : ((p.toNat : ℕ) : ℚ) = (p : ℚ) := by
        rw [← Int.cast_natCast]
        congr 1
        omega
      have hseed : (vs.take p.toNat).sum / (p : ℚ) = c := by
        rw [sum_of_const _ c htakeconst, htlen, hcastp]
        have : ((p : ℚ)) ≠ 0 := by
          exact_mod_cast ne_of_gt (by exact_mod_cast hp : (0 : ℚ) < (p : ℚ))
        field_simp
      rw [hseed] at heq
      have hel : el = c :: emaLoop (2 / ((p : ℚ) + 1)) c (vs.drop p.toNat) :=
        (Except.ok.inj heq).symm
      intro x hx
      rw [hel] at hx
      rcases List.mem_cons.mp hx with hxc | hx'
      · exact hxc
      · exact emaLoop_const _ c (vs.drop p.toNat) (hdropconst2 p.toNat) x hx'

/-- If all true ranges against the running previous close vanish and the
candles are well-formed, every close equals the anchor close. -/
theorem closes_const_of_trs_zero :
    ∀ (l : List Candle) (a : Candle),
      (∀ c ∈ l, c.low ≤ c.close ∧ c.close ≤ c.high) →
      (∀ t ∈ List.zipWith3 trueRange (l.map Candle.high) (l.map Candle.low)
          (Candle.close a :: l.map Candle.close), t = 0) →
      ∀ c ∈ l, c.close = a.close := by
  intro l
  induction l with
  | nil =>
    intro a _ _ c hc
    exact absurd hc (List.not_mem_nil c)
  | cons b t ih =>
    intro a hwf hz c hc
    have hzip : List.zipWith3 trueRange ((b :: t).map Candle.high)
        ((b :: t).map Candle.low)
        (Candle.close a :: (b :: t).map Candle.close)
        = trueRange b.high b.low a.close ::
          List.zipWith3 trueRange (t.map Candle.high) (t.map Candle.low)
            (Candle.close b :: t.map Candle.close) := by
      simp [List.zipWith3]
    have hfirst : trueRange b.high b.low a.close = 0 := by
      apply hz
      rw [hzip]
      exact List.mem_cons_self _ _
    obtain ⟨hh, hl⟩ := high_low_eq_of_trueRange_eq_zero _ _ _ hfirst
    have hbwf := hwf b (List.mem_cons_self b t)
    have hbc : b.close = a.close := by
      rw [hh] at hbwf
      rw [hl] at hbwf
      exact le_antisymm hbwf.2 hbwf.1
    rcases List.mem_cons.mp hc with rfl | hct
    · exact hbc
    · have hz' : ∀ s ∈ List.zipWith3 trueRange (t.map Candle.high)
          (t.map Candle.low) (Candle.close b :: t.map Candle.close), s = 0 := by
        intro s hs
        apply hz
        rw [hzip]
        exact List.mem_cons_of_mem _ hs
      have := ih b (fun x hx => hwf x (List.mem_cons_of_mem b hx)) hz' c hct
      rw [this, hbc]

/-- `calculate_atr` over the three projections of one candle list, with
the length bookkeeping discharged. -/
theorem calculate_atr_map (candles : List Candle) :
    calculate_atr (candles.map Candle.high) (candles.map Candle.low)
        (candles.map Candle.close) 14
      = (let trs := List.zipWith3 trueRange ((candles.map Candle.high).drop 1)
            ((candles.map Candle.low).drop 1) (candles.map Candle.close)
         if candles.length < 2 then Except.ok []
         else if trs.length < 14 then Except.ok []
         else Except.ok ((trs.take 14).sum / 14 ::
           atrLoop 14 ((trs.take 14).sum / 14) (trs.drop 14))) := by
  unfold calculate_atr
  rw [if_neg (by norm_num : ¬ (14 : ℤ) ≤ 0)]
  have ht : ∀ (f : Candle → ℚ),
      (candles.map f).take candles.length = candles.map f := by
    intro f
    rw [← List.length_map candles f]
    exact List.take_length _
  simp only [List.length_map, min_self, ht]
  simp only [show (14 : ℤ).toNat = 14 from rfl]
  push_cast
  rfl

/-- The last ATR value over well-formed candles is nonnegative, and is
zero only when every close in the series coincides. -/
theorem atr_last_cases (candles : List Candle) (atrl : List ℚ) (x : ℚ)
    (hwf : ∀ c ∈ candles, c.low ≤ c.close ∧ c.close ≤ c.high)
    (heq : calculate_atr (candles.map Candle.high) (candles.map Candle.low)
        (candles.map Candle.close) 14 = Except.ok atrl)
    (hlast : atrl.getLast? = some x) :
    0 ≤ x ∧ (x = 0 → ∀ c1 ∈ candles, ∀ c2 ∈ candles, c1.close = c2.close) := by
  rw [calculate_atr_map] at heq
  set trs := List.zipWith3 trueRange ((candles.map Candle.high).drop 1)
      ((candles.map Candle.low).drop 1) (candles.map Candle.close) with htrs
  simp only at heq
  split at heq
  · have : atrl = [] := (Except.ok.inj heq).symm
    rw [this] at hlast
    simp at hlast
  · next hm2 =>
    split at heq
    · have : atrl = [] := (Except.ok.inj heq).symm
      rw [this] at hlast
      simp at hlast
    · next hlen =>
      have hatrl : atrl = (trs.take 14).sum / 14 ::
          atrLoop 14 ((trs.take 14).sum / 14) (trs.drop 14) :=
        (Except.ok.inj heq).symm
      have htrs_nonneg : ∀ t ∈ trs, 0 ≤ t := by
        rw [htrs]
        exact zipWith3_trueRange_nonneg _ _ _
      have hseed_nonneg : 0 ≤ (trs.take 14).sum / 14 :=
        div_nonneg
          (List.sum_nonneg (fun t ht => htrs_nonneg t (List.mem_of_mem_take ht)))
          (by norm_num)
      have hlast' : (atrLoop 14 ((trs.take 14).sum / 14) (trs.drop 14)).getLast?.getD
          ((trs.take 14).sum / 14) = x := by
        rw [← getLastD_cons ((trs.take 14).sum / 14) ((trs.take 14).sum / 14),
          ← hatrl, hlast]
        rfl
      obtain ⟨hge, himp⟩ := atrLoop_lastD 14 (by norm_num) (trs.drop 14)
        ((trs.take 14).sum / 14) hseed_nonneg
        (fun t ht => htrs_nonneg t (List.mem_of_mem_drop ht))
      constructor
      · rw [← hlast']
        exact hge
      · intro hx0
        obtain ⟨hseed0, hdrop0⟩ := himp (by rw [hlast']; exact hx0)
        have hsum0 : (trs.take 14).sum = 0 := by
          have h14 : (14 : ℚ) ≠ 0 := by norm_num
          field_simp at hseed0
          linarith [hseed0]
        have htake0 := all_zero_of_sum_zero _
          (fun t ht => htrs_nonneg t (List.mem_of_mem_take ht)) hsum0
        have hall0 : ∀ t ∈ trs, t = 0 := by
          intro t ht
          rw [← List.take_append_drop 14 trs] at ht
          rcases List.mem_append.mp ht with h | h
          · exact htake0 t h
          · exact hdrop0 t h
        cases candles with
        | nil => simp at hm2
        | cons a rest =>
          have htrs_eq : trs = List.zipWith3 trueRange (rest.map Candle.high)
              (rest.map Candle.low)
              (Candle.close a :: rest.map Candle.close) := by
            rw [htrs]
            simp
          have hcc := closes_const_of_trs_zero rest a
            (fun c hc => hwf c (List.mem_cons_of_mem a hc))
            (by rw [← htrs_eq]; exact hall0)
          have key : ∀ c ∈ a :: rest, c.close = a.close := by
            intro c hc
            rcases List.mem_cons.mp hc with rfl | h
            · rfl
            · exact hcc c h
          intro c1 h1 c2 h2
          rw [key c1 h1, key c2 h2]

/-- If the last close differs from the last EMA-20 value, the last ATR
value over well-formed candles is strictly positive. -/
theorem atr_last_pos_of_price_ne_ema (candles : List Candle)
    (eml atrl : List ℚ) (price ema a : ℚ)
    (hwf : ∀ c ∈ candles, c.low ≤ c.close ∧ c.close ≤ c.high)
    (hema : calculate_ema (candles.map Candle.close) 20 = Except.ok eml)
    (hatr : calculate_atr (candles.map Candle.high) (candles.map Candle.low)
        (candles.map Candle.close) 14 = Except.ok atrl)
    (hprice : (candles.map Candle.close).getLast? = some price)
    (hemal : eml.getLast? = some ema)
    (hatrl : atrl.getLast? = some a)
    (hne : price ≠ ema) : 0 < a := by
  have hnn := atr_last_cases candles atrl a hwf hatr hatrl
  rcases lt_or_eq_of_le hnn.1 with hpos | heq0
  · exact hpos
  · exfalso
    have hconst := hnn.2 heq0.symm
    have hprice_mem : price ∈ candles.map Candle.close :=
      mem_of_getLast_opt hprice
    obtain ⟨c1, hc1, hc1p⟩ := List.mem_map.mp hprice_mem
    have hallclose : ∀ v ∈ candles.map Candle.close, v = c1.close := by
      intro v hv
      obtain ⟨c2, hc2, hc2v⟩ := List.mem_map.mp hv
      rw [← hc2v, hconst c2 hc2 c1 hc1]
    have hlen : (candles.map Candle.close).length ≠ 0 := by
      intro h0
      rw [List.length_eq_zero] at h0
      rw [h0] at hprice_mem
      exact absurd hprice_mem (List.not_mem_nil _)
    have hemaconst := calculate_ema_const _ c1.close 20 eml (by norm_num)
      hlen hallclose hema
    have hema_eq : ema = c1.close := hemaconst _ (mem_of_getLast_opt hemal)
    exact hne (by rw [← hc1p, hema_eq])

/-- C6 (amended): over candle lists whose bars satisfy the data-model
invariant (low ≤ close ≤ high), every emitted LONG signal is strictly
ordered stop < entry < tp1 < tp2, mirrored for SHORT. -/
theorem evaluate_entry_levels_ordered (ohlcv_5m : List Candle)
    (trend_bias : TrendBias) (ai_gate : AIGateStatus)
    (current_positions max_positions : ℤ) (sig : EntrySignal)
    (hwf : ∀ c ∈ ohlcv_5m, c.low ≤ c.close ∧ c.close ≤ c.high)
    (hsig : evaluate_entry ohlcv_5m trend_bias ai_gate current_positions
        max_positions = some sig) :
    (sig.side = TradeSide.LONG →
      sig.stop_loss < sig.entry_price ∧
      sig.entry_price < sig.take_profit_1 ∧
      sig.take_profit_1 < sig.take_profit_2) ∧
    (sig.side = TradeSide.SHORT →
      sig.take_profit_2 < sig.take_profit_1 ∧
      sig.take_profit_1 < sig.entry_price ∧
      sig.entry_price < sig.stop_loss) := by
  unfold evaluate_entry at hsig
  split at hsig
  · exact absurd hsig (by simp)
  split at hsig
  · exact absurd hsig (by simp)
  split at hsig
  · exact absurd hsig (by simp)
  dsimp only at hsig
  split at hsig
  · -- the three indicator calls succeeded
    rename_i xe xr xa ema_20 rsil atrl hema hrsi hatr
    split at hsig
    · -- the four getLast? lookups succeeded
      rename_i p1 p2 p3 p4 current_price current_ema20 current_rsi current_atr
        hlast_price hlast_ema hlast_rsi hlast_atr
      split at hsig
      · exact absurd hsig (by simp)
      split at hsig
      · -- BULLISH arm
        split at hsig
        · -- LONG signal emitted
          rename_i hbull hconds
          obtain rfl := (Option.some.inj hsig).symm
          have hapos : 0 < current_atr :=
            atr_last_pos_of_price_ne_ema ohlcv_5m ema_20 atrl
              current_price current_ema20 current_atr hwf hema hatr
              hlast_price hlast_ema hlast_atr (ne_of_gt hconds.2)
          refine ⟨fun _ => ⟨?_, ?_, ?_⟩, fun hS => absurd hS (by simp)⟩
          · show current_price - 3 / 2 * current_atr < current_price
            linarith
          · show current_price < current_price + 3 / 2 * current_atr
            linarith
          · show current_price + 3 / 2 * current_atr
              < current_price + 3 * current_atr
            linarith
        · exact absurd hsig (by simp)
      split at hsig
      · -- BEARISH arm
        split at hsig
        · -- SHORT signal emitted
          rename_i hnotbull hbear hconds
          obtain rfl := (Option.some.inj hsig).symm
          have hapos : 0 < current_atr :=
            atr_last_pos_of_price_ne_ema ohlcv_5m ema_20 atrl
              current_price current_ema20 current_atr hwf hema hatr
              hlast_price hlast_ema hlast_atr (ne_of_lt hconds.2)
          refine ⟨fun hS => absurd hS (by simp), fun _ => ⟨?_, ?_, ?_⟩⟩
          · show current_price - 3 * current_atr
              < current_price - 3 / 2 * current_atr
            linarith
          · show current_price - 3 / 2 * current_atr < current_price
            linarith
          · show current_price < current_price + 3 / 2 * current_atr
            linarith
        · exact absurd hsig (by simp)
      · exact absurd hsig (by simp)
    · exact absurd hsig (by simp)
  · exact absurd hsig (by simp)

/-- C6 counterexample: on 15 malformed candles (each bar's high and low
pinned to the previous close, violating the data-model invariant, so the
ATR is 0 while the closes rise) `evaluate_entry` emits a LONG signal with
all four levels equal, refuting the strict ordering as claimed over
arbitrary inputs. -/
theorem evaluate_entry_levels_counterexample :
    evaluate_entry degenerateCandles TrendBias.BULLISH AIGateStatus.OPEN 0 2
      = some { side := TradeSide.LONG, entry_price := 5007/50,
               stop_loss := 5007/50, take_profit_1 := 5007/50,
               take_profit_2 := 5007/50, atr := 0 } ∧
    ¬ ((5007 : ℚ)/50 < 5007/50) := by
  constructor
  · norm_num [degenerateCandles, evaluate_entry, calculate_ema, calculate_rsi,
      calculate_atr, emaLoop, rsiLoop, atrLoop, trueRange, rs_to_rsi,
      min_def, max_def, List.zipWith3, abs_of_nonneg, abs_of_nonpos,
      show (14 : ℤ).toNat = 14 from rfl, show (20 : ℤ).toNat = 20 from rfl]
    exact fun h => nomatch h
  · exact lt_irrefl _

/-- Witness for C6 (amended): a well-formed rising series emits a LONG
signal with strictly ordered levels. -/
theorem evaluate_entry_levels_ordered_witness :
    (∀ c ∈ wellFormedCandles, c.low ≤ c.close ∧ c.close ≤ c.high) ∧
    evaluate_entry wellFormedCandles TrendBias.BULLISH AIGateStatus.OPEN 0 2
      = some { side := TradeSide.LONG, entry_price := 10014/100,
               stop_loss := 10011/100, take_profit_1 := 10017/100,
               take_profit_2 := 10020/100, atr := 1/50 } ∧
    (((10011 : ℚ)/100 < 10014/100 ∧ (10014 : ℚ)/100 < 10017/100 ∧
      (10017 : ℚ)/100 < 10020/100)) := by
  have hwf : ∀ c ∈ wellFormedCandles, c.low ≤ c.close ∧ c.close ≤ c.high := by
    norm_num [wellFormedCandles]
  have heval : evaluate_entry wellFormedCandles TrendBias.BULLISH
      AIGateStatus.OPEN 0 2
      = some { side := TradeSide.LONG, entry_price := 10014/100,
               stop_loss := 10011/100, take_profit_1 := 10017/100,
               take_profit_2 := 10020/100, atr := 1/50 } := by
    norm_num [wellFormedCandles, evaluate_entry, calculate_ema, calculate_rsi,
      calculate_atr, emaLoop, rsiLoop, atrLoop, trueRange, rs_to_rsi,
      min_def, max_def, List.zipWith3, abs_of_nonneg, abs_of_nonpos,
      show (14 : ℤ).toNat = 14 from rfl, show (20 : ℤ).toNat = 20 from rfl]
    exact fun h => nomatch h
  refine ⟨hwf, heval, ?_⟩
  have h := (evaluate_entry_levels_ordered wellFormedCandles TrendBias.BULLISH
    AIGateStatus.OPEN 0 2 _ hwf heval).1 rfl
  exact h

end TradeBot
